import Mathlib

/-!
# viperx/validate.go

A shallow embedding of `ValidateFromURL`, `Validate`,
`LoggerWithValidationErrorFields` and `jsonschemaFormatError`.

The functions of other packages that the file calls (the JSON schema compiler,
the JSON encoder, the schema loader, `BindEnvsToSchema`, `errorsx.Cause`,
`jsonschemax.JSONPointerToDotNotation`) are fields of a record `Deps`; the
statements below hold for every such record.
-/

namespace Viperx

/-- Go `[]byte`. -/
abbrev Bytes := List UInt8

/-- The `Context` interface value of a `jsonschema.ValidationError`: absent, a
`*ValidationErrorContextRequired` with its `Missing` list, or a context of any
other dynamic type. -/
inductive ErrorContext where
  | none
  | required (Missing : List String)
  | other (kind : String)
  deriving DecidableEq, Repr

/-- The fields of `jsonschema.ValidationError` that validate.go reads. -/
inductive ValidationError where
  | mk (InstancePtr : String) (Message : String) (Context : ErrorContext)
      (Causes : List ValidationError)
  deriving Repr

namespace ValidationError

/-- The field `InstancePtr`. -/
def InstancePtr : ValidationError → String
  | mk p _ _ _ => p

/-- The field `Message`. -/
def Message : ValidationError → String
  | mk _ m _ _ => m

/-- The field `Context`. -/
def Context : ValidationError → ErrorContext
  | mk _ _ c _ => c

/-- The field `Causes`. -/
def Causes : ValidationError → List ValidationError
  | mk _ _ _ cs => cs

end ValidationError

/-- Go `error` values as validate.go tells them apart: a
`*jsonschema.ValidationError`, any other plain error, and the wrapper made by
`errors.WithStack`, whose `Cause()` is the wrapped error. -/
inductive GoError where
  | validation (e : ValidationError)
  | other (msg : String)
  | withStack (err : GoError)
  deriving Repr

/-- The `Cause()` method of pkg/errors: only the `WithStack` wrapper has one. -/
def GoError.causer : GoError → Option GoError
  | .withStack err => some err
  | _ => none

/-- The state of the process-wide viper instance that validate.go reads or
writes: the registered environment bindings (key, environment variable), the
type-by-default-value flag and the configuration file in use. -/
structure Viper where
  env : List (String × String)
  typeByDefValue : Bool
  configFile : String
  deriving DecidableEq, Repr

/-- The function `viper.SetTypeByDefaultValue`. -/
def Viper.SetTypeByDefaultValue (v : Viper) (enable : Bool) : Viper :=
  { v with typeByDefValue := enable }

/-- The function `viper.ConfigFileUsed`. -/
def Viper.ConfigFileUsed (v : Viper) : String :=
  v.configFile

/-- The calls validate.go makes into other packages, with the arguments that
matter here. -/
inductive Call where
  | LoadURL (url : String)
  | ReadAll
  | BindEnvsToSchema (content : Bytes)
  | SetTypeByDefaultValue (enable : Bool)
  | NewCompiler
  | AddResource (name : String) (content : Bytes)
  | Compile (name : String)
  | AllSettings (v : Viper)
  | Encode
  | SchemaValidate (doc : Bytes)
  deriving DecidableEq, Repr

/-- What a call of validate.go acts on: the viper instance, and the record of
the calls made so far into other packages, oldest first. -/
structure World where
  viper : Viper
  calls : List Call
  deriving DecidableEq, Repr

/-- Append one call to the record. -/
def World.did (w : World) (c : Call) : World :=
  { w with calls := w.calls ++ [c] }

/-- The functions of other packages that validate.go calls. `R` is the reader
returned by the loader, `C` a schema compiler, `S` a compiled schema and `A`
the settings map of viper. A Go result `(x, err)` whose `x` is unused when
`err != nil` is an `Except`; `JSONPointerToDotNotation` keeps both parts, and
`BindEnvsToSchema` returns the viper instance as it leaves it. -/
structure Deps (R C S A : Type) where
  LoadURL : String → Except GoError R
  ReadAll : R → Except GoError Bytes
  BindEnvsToSchema : Bytes → Viper → Viper × Option GoError
  NewCompiler : C
  AddResource : C → String → Bytes → Except GoError C
  Compile : C → String → Except GoError S
  AllSettings : Viper → A
  Encode : A → Except GoError Bytes
  SchemaValidate : S → Bytes → Option GoError
  Cause : GoError → GoError
  JSONPointerToDotNotation : String → String × Option GoError

/-- The function `jsonschemaFormatError`. `conv` is
`jsonschemax.JSONPointerToDotNotation`. -/
def jsonschemaFormatError (conv : String → String × Option GoError)
    (e : ValidationError) : String × String :=
  let pointer := e.InstancePtr
  let message := e.Message
  let pm : String × String :=
    match e.Context with
    | .required Missing =>
      match Missing with
      | first :: _ => (first, "one or more required properties are missing")
      | [] => (pointer, message)
    | _ => (pointer, message)
  let r := conv pm.1
  let pointer := if r.2.isSome then e.InstancePtr else r.1
  ("[config_key=" ++ pointer ++ "]", pm.2)

/-- The values validate.go stores in a `logrus.Fields` map: a string, or the
error stored by `WithError`. -/
inductive FieldValue where
  | str (s : String)
  | err (e : GoError)
  deriving Repr

/-- Go `logrus.Fields`, a `map[string]interface{}`: a list of pairs in which
every key occurs once. -/
abbrev Fields := List (String × FieldValue)

/-- The assignment `m[k] = v`. -/
def Fields.set : Fields → String → FieldValue → Fields
  | [], k, v => [(k, v)]
  | (k', v') :: rest, k, v =>
    if k' = k then (k', v) :: rest else (k', v') :: Fields.set rest k v

/-- The lookup `m[k]`. -/
def Fields.get : Fields → String → Option FieldValue
  | [], _ => none
  | (k', v') :: rest, k => if k' = k then some v' else Fields.get rest k

/-- The keys of the map. -/
def Fields.keys (m : Fields) : List String :=
  m.map Prod.fst

/-- A `logrus.FieldLogger`, as the fields its entries carry. -/
structure Logger where
  Data : Fields
  deriving Repr

/-- The method `WithFields` of logrus: the fields of the receiver, then every
given field assigned over them. -/
def Logger.WithFields (l : Logger) (fields : Fields) : Logger :=
  { Data := fields.foldl (fun data kv => Fields.set data kv.1 kv.2) l.Data }

/-- The method `WithError` of logrus: `WithField(ErrorKey, err)` with
`ErrorKey = "error"`. -/
def Logger.WithError (l : Logger) (err : GoError) : Logger :=
  l.WithFields [("error", FieldValue.err err)]

/-- The map `entries` that `LoggerWithValidationErrorFields` fills in its
`*jsonschema.ValidationError` case. -/
def validationErrorEntries (conv : String → String × Option GoError) (v : Viper)
    (e : ValidationError) : Fields :=
  let entries : Fields := []
  let pm := jsonschemaFormatError conv e
  let entries := Fields.set entries "config_file" (FieldValue.str v.ConfigFileUsed)
  let entries := Fields.set entries pm.1 (FieldValue.str pm.2)
  e.Causes.foldl
    (fun entries cause =>
      let pm := jsonschemaFormatError conv cause
      Fields.set entries pm.1 (FieldValue.str pm.2))
    entries

/-- The function `LoggerWithValidationErrorFields`, reading the viper
instance `v`. -/
def LoggerWithValidationErrorFields {R C S A : Type} (d : Deps R C S A) (v : Viper)
    (l : Logger) (err : GoError) : Logger :=
  match d.Cause err with
  | .validation e => l.WithFields (validationErrorEntries d.JSONPointerToDotNotation v e)
  | _ => l.WithError err

/-- The function `Validate`. -/
def Validate {R C S A : Type} (d : Deps R C S A) (name : String) (content : Bytes)
    (w : World) : World × Option GoError :=
  let w := w.did (.BindEnvsToSchema content)
  let r := d.BindEnvsToSchema content w.viper
  let w := { w with viper := r.1 }
  match r.2 with
  | some err => (w, some (.withStack err))
  | none =>
    let w := w.did (.SetTypeByDefaultValue true)
    let w := { w with viper := w.viper.SetTypeByDefaultValue true }
    let w := w.did .NewCompiler
    let c := d.NewCompiler
    let w := w.did (.AddResource name content)
    match d.AddResource c name content with
    | .error err => (w, some (.withStack err))
    | .ok c =>
      let w := w.did (.Compile name)
      match d.Compile c name with
      | .error err => (w, some (.withStack err))
      | .ok s =>
        let w := w.did (.AllSettings w.viper)
        let settings := d.AllSettings w.viper
        let w := w.did .Encode
        match d.Encode settings with
        | .error err => (w, some (.withStack err))
        | .ok b =>
          let w := w.did (.SchemaValidate b)
          match d.SchemaValidate s b with
          | some err => (w, some (.withStack err))
          | none => (w, none)

/-- The function `ValidateFromURL`. -/
def ValidateFromURL {R C S A : Type} (d : Deps R C S A) (url : String) (w : World) :
    World × Option GoError :=
  let w := w.did (.LoadURL url)
  match d.LoadURL url with
  | .error err => (w, some (.withStack err))
  | .ok buf =>
    let w := w.did .ReadAll
    match d.ReadAll buf with
    | .error err => (w, some (.withStack err))
    | .ok result => Validate d url result w

/-! ## Definitions used to state the properties -/

/-- A run of assignments `m[k] = v`, in order. -/
def Fields.setAll (m : Fields) (kvs : List (String × FieldValue)) : Fields :=
  kvs.foldl (fun data kv => Fields.set data kv.1 kv.2) m

/-- The field a node contributes: its translated key and its message. -/
def nodeField (conv : String → String × Option GoError) (n : ValidationError) :
    String × FieldValue :=
  ((jsonschemaFormatError conv n).1, FieldValue.str (jsonschemaFormatError conv n).2)

/-- The pointer `jsonschemaFormatError` hands to the conversion: the first
missing path of a required-properties-missing context, else the instance
pointer. -/
def computedPointer (e : ValidationError) : String :=
  match e.Context with
  | .required (first :: _) => first
  | _ => e.InstancePtr

/-- The node with the causes of its direct causes removed. -/
def ValidationError.withoutNested (e : ValidationError) : ValidationError :=
  .mk e.InstancePtr e.Message e.Context
    (e.Causes.map fun c => .mk c.InstancePtr c.Message c.Context [])

/-! ## Concrete instances used in the examples -/

/-- Modelled from the spec: `jsonschemax.JSONPointerToDotNotation` is not among
the sources. A JSON pointer is a sequence of keys separated by `/`, dotted
notation the same keys separated by `.`, and the conversion can fail. In this
instance, used for the examples, a pointer that does not start with `#/` is
the failing case; the error comes with the pointer as given, as the comment in
`jsonschemaFormatError` describes. -/
def pointerToDots (pointer : String) : String × Option GoError :=
  match pointer.data with
  | '#' :: '/' :: keys => (String.mk (keys.map fun c => if c = '/' then '.' else c), none)
  | _ => (pointer, some (.other "remote JSON pointers are not supported"))

/-- Modelled from the spec: `errorsx.Cause` is not among the sources. Errors are
wrapped carrying the original cause; the cause of an error is found by taking
`Cause()` for as long as there is one. -/
def unwrapCause : GoError → GoError
  | .withStack err => unwrapCause err
  | e => e

/-- A record of collaborators for the examples. The schema `[0]` is malformed
for the binder, `[4]` is not accepted as a resource, `[2]` does not compile,
`[3]` compiles to a schema that no document satisfies, and every other schema
accepts every document. The loader knows one URL. -/
def sampleDeps : Deps Bytes Bytes Bytes Bytes where
  LoadURL := fun url =>
    if url = "file://schema.json" then .ok [1] else .error (.other "no such file")
  ReadAll := fun buf => .ok buf
  BindEnvsToSchema := fun content v =>
    if content = [0] then (v, some (.other "malformed schema"))
    else ({ v with env := v.env ++ [("service.port", "SERVICE_PORT")] }, none)
  NewCompiler := []
  AddResource := fun _ _ content =>
    if content = [4] then .error (.other "invalid resource") else .ok content
  Compile := fun c _ =>
    if c = [2] then .error (.other "unresolvable reference") else .ok c
  AllSettings := fun v => if v.typeByDefValue then [7] else [8]
  Encode := fun a => .ok a
  SchemaValidate := fun s _ =>
    if s = [3] then some (.validation (ValidationError.mk "#" "invalid" .none []))
    else none
  Cause := unwrapCause
  JSONPointerToDotNotation := pointerToDots

/-- A viper instance with nothing bound. -/
def sampleViper : Viper :=
  { env := [], typeByDefValue := false, configFile := "/etc/app.yaml" }

/-- The start of a process: `sampleViper`, no call made yet. -/
def sampleWorld : World :=
  { viper := sampleViper, calls := [] }

/-! ## The field translation of one error node -/

/-- C1: a node whose context is required-properties-missing with a non-empty
`Missing` list is translated from the first missing path alone: when that path
converts to `d`, the key is `[config_key=d]` and the message is the fixed
sentence, whatever the node's pointer, message and further missing paths. -/
theorem jsonschemaFormatError_required (conv : String → String × Option GoError)
    (e : ValidationError) (first : String) (rest : List String) (d : String)
    (hctx : e.Context = .required (first :: rest)) (hconv : conv first = (d, none)) :
    jsonschemaFormatError conv e
      = ("[config_key=" ++ d ++ "]", "one or more required properties are missing") := by
  simp [jsonschemaFormatError, hctx, hconv]

/-- Witness of C1 and scenario A: `service.port` is the first of two missing
properties. -/
theorem jsonschemaFormatError_required_witness :
    (ValidationError.mk "#" "missing properties: port"
        (.required ["#/service/port", "#/service/host"]) []).Context
      = .required ("#/service/port" :: ["#/service/host"])
    ∧ pointerToDots "#/service/port" = ("service.port", none)
    ∧ jsonschemaFormatError pointerToDots
        (ValidationError.mk "#" "missing properties: port"
          (.required ["#/service/port", "#/service/host"]) [])
      = ("[config_key=" ++ "service.port" ++ "]",
          "one or more required properties are missing") :=
  ⟨rfl, rfl, jsonschemaFormatError_required pointerToDots _ "#/service/port"
    ["#/service/host"] "service.port" rfl rfl⟩

/-- C6: a node whose context is not required-properties-missing, or is one
with an empty `Missing` list, and whose instance pointer converts to `d`, is
translated to the key `[config_key=d]` with its own message unchanged. -/
theorem jsonschemaFormatError_plain (conv : String → String × Option GoError)
    (e : ValidationError) (d : String)
    (hctx : ∀ first rest, e.Context ≠ .required (first :: rest))
    (hconv : conv e.InstancePtr = (d, none)) :
    jsonschemaFormatError conv e = ("[config_key=" ++ d ++ "]", e.Message) := by
  unfold jsonschemaFormatError
  cases hc : e.Context with
  | none => simp [hconv]
  | other kind => simp [hconv]
  | required Missing =>
    cases Missing with
    | nil => simp [hconv]
    | cons first rest => exact absurd hc (hctx first rest)

/-- Witness of C6 and scenario B: a type mismatch at `#/service/port`. -/
theorem jsonschemaFormatError_plain_witness :
    (∀ first rest, (ValidationError.mk "#/service/port" "expected integer, but got string"
        (.other "type") []).Context ≠ .required (first :: rest))
    ∧ pointerToDots "#/service/port" = ("service.port", none)
    ∧ jsonschemaFormatError pointerToDots
        (ValidationError.mk "#/service/port" "expected integer, but got string"
          (.other "type") [])
      = ("[config_key=" ++ "service.port" ++ "]", "expected integer, but got string") :=
  ⟨fun _ _ h => ErrorContext.noConfusion h, rfl,
    jsonschemaFormatError_plain pointerToDots _ "service.port"
      (fun _ _ h => ErrorContext.noConfusion h) rfl⟩

/-- When the conversion of the computed pointer reports an error, the key is
built from the node's own instance pointer, in every context, and the message
is the one computed before the conversion. -/
theorem jsonschemaFormatError_fallback (conv : String → String × Option GoError)
    (e : ValidationError) (hfail : (conv (computedPointer e)).2.isSome = true) :
    (jsonschemaFormatError conv e).1 = "[config_key=" ++ e.InstancePtr ++ "]" := by
  unfold computedPointer at hfail
  unfold jsonschemaFormatError
  cases hc : e.Context with
  | none => simp_all
  | other kind => simp_all
  | required Missing =>
    cases Missing with
    | nil => simp_all
    | cons first rest => simp_all

/-- C7, the code at a required-properties-missing node whose first missing
path does not convert: the key is built from the node's instance pointer
`#/service`, not from the missing path `service/port` that was given to the
conversion. -/
theorem jsonschemaFormatError_fallback_is_instance_pointer :
    pointerToDots "service/port"
      = ("service/port", some (.other "remote JSON pointers are not supported"))
    ∧ jsonschemaFormatError pointerToDots
        (ValidationError.mk "#/service" "missing properties: port"
          (.required ["service/port"]) [])
      = ("[config_key=#/service]", "one or more required properties are missing")
    ∧ "[config_key=#/service]" ≠ "[config_key=" ++ "service/port" ++ "]" :=
  ⟨rfl, rfl, by decide⟩

/-! ## Assignments to a `logrus.Fields` map -/

theorem Fields.get_set (m : Fields) (k : String) (v : FieldValue) (q : String) :
    Fields.get (Fields.set m k v) q = if k = q then some v else Fields.get m q := by
  induction m with
  | nil => simp [Fields.set, Fields.get]
  | cons hd tl ih =>
    obtain ⟨hk, hv⟩ := hd
    by_cases h1 : hk = k
    · subst h1
      by_cases h2 : hk = q <;> simp [Fields.set, Fields.get, h2]
    · by_cases h2 : hk = q
      · subst h2
        have h3 : ¬ k = hk := fun h => h1 h.symm
        simp [Fields.set, Fields.get, h1, h3]
      · simp [Fields.set, Fields.get, h1, h2, ih]

theorem Fields.mem_keys_set (m : Fields) (k : String) (v : FieldValue) (q : String) :
    q ∈ Fields.keys (Fields.set m k v) ↔ q = k ∨ q ∈ Fields.keys m := by
  induction m with
  | nil => simp [Fields.set, Fields.keys]
  | cons hd tl ih =>
    obtain ⟨hk, hv⟩ := hd
    simp only [Fields.keys] at ih
    by_cases h1 : hk = k
    · subst h1
      simp [Fields.set, Fields.keys]
    · simp only [Fields.set, Fields.keys, h1, if_false, List.map_cons, List.mem_cons, ih]
      tauto

theorem Fields.length_set_le (m : Fields) (k : String) (v : FieldValue) :
    (Fields.set m k v).length ≤ m.length + 1 := by
  induction m with
  | nil => simp [Fields.set]
  | cons hd tl ih =>
    obtain ⟨hk, hv⟩ := hd
    by_cases h1 : hk = k
    · simp [Fields.set, h1]
    · simp only [Fields.set, h1, if_false, List.length_cons]
      omega

theorem Fields.nodup_keys_set (m : Fields) (k : String) (v : FieldValue)
    (h : (Fields.keys m).Nodup) : (Fields.keys (Fields.set m k v)).Nodup := by
  induction m with
  | nil => simp [Fields.set, Fields.keys]
  | cons hd tl ih =>
    obtain ⟨hk, hv⟩ := hd
    have htl : (Fields.keys tl).Nodup := by
      simp only [Fields.keys, List.map_cons, List.nodup_cons] at h
      exact h.2
    have hnot : hk ∉ Fields.keys tl := by
      simp only [Fields.keys, List.map_cons, List.nodup_cons] at h
      exact h.1
    by_cases h1 : hk = k
    · simpa [Fields.set, Fields.keys, h1] using h
    · have ih2 := ih htl
      have hmem : hk ∉ Fields.keys (Fields.set tl k v) := by
        rw [Fields.mem_keys_set]
        rintro (h2 | h2)
        · exact h1 h2
        · exact hnot h2
      simp only [Fields.set, h1, if_false]
      simp only [Fields.keys, List.map_cons, List.nodup_cons]
      exact ⟨hmem, ih2⟩

theorem Fields.get_setAll (kvs : List (String × FieldValue)) (m : Fields) (q : String) :
    Fields.get (Fields.setAll m kvs) q
      = match kvs.reverse.find? (fun kv => kv.1 = q) with
        | some kv => some kv.2
        | none => Fields.get m q := by
  induction kvs generalizing m with
  | nil => simp [Fields.setAll]
  | cons kv tl ih =>
    have h := ih (Fields.set m kv.1 kv.2)
    simp only [Fields.setAll, List.foldl_cons] at h ⊢
    rw [h, List.reverse_cons, List.find?_append]
    cases hf : tl.reverse.find? (fun kv => kv.1 = q) with
    | some x => simp
    | none =>
      by_cases h1 : kv.1 = q <;> simp [Fields.get_set, h1, List.find?]

theorem Fields.mem_keys_setAll (kvs : List (String × FieldValue)) (m : Fields) (q : String) :
    q ∈ Fields.keys (Fields.setAll m kvs) ↔ q ∈ Fields.keys m ∨ q ∈ kvs.map Prod.fst := by
  induction kvs generalizing m with
  | nil => simp [Fields.setAll]
  | cons kv tl ih =>
    have h := ih (Fields.set m kv.1 kv.2)
    simp only [Fields.setAll, List.foldl_cons] at h ⊢
    rw [h, Fields.mem_keys_set]
    simp only [List.map_cons, List.mem_cons]
    tauto

theorem Fields.length_setAll_le (kvs : List (String × FieldValue)) (m : Fields) :
    (Fields.setAll m kvs).length ≤ m.length + kvs.length := by
  induction kvs generalizing m with
  | nil => simp [Fields.setAll]
  | cons kv tl ih =>
    have h := ih (Fields.set m kv.1 kv.2)
    have h2 := Fields.length_set_le m kv.1 kv.2
    simp only [Fields.setAll, List.foldl_cons, List.length_cons] at h ⊢
    omega

theorem Fields.nodup_keys_setAll (kvs : List (String × FieldValue)) (m : Fields)
    (hm : (Fields.keys m).Nodup) : (Fields.keys (Fields.setAll m kvs)).Nodup := by
  induction kvs generalizing m with
  | nil => simpa [Fields.setAll] using hm
  | cons kv tl ih =>
    have h := ih (Fields.set m kv.1 kv.2) (Fields.nodup_keys_set m kv.1 kv.2 hm)
    simpa only [Fields.setAll, List.foldl_cons] using h

/-- The map `entries` is the run of assignments: `config_file`, the root's
field, then the field of each direct cause in order. -/
theorem validationErrorEntries_eq_setAll (conv : String → String × Option GoError)
    (v : Viper) (e : ValidationError) :
    validationErrorEntries conv v e
      = Fields.setAll [("config_file", FieldValue.str v.ConfigFileUsed)]
          ((e :: e.Causes).map (nodeField conv)) := by
  simp only [validationErrorEntries, Fields.setAll, List.map_cons, List.foldl_cons,
    List.foldl_map, nodeField, Fields.set]

/-- A translated key is never the key `config_file`. -/
theorem config_key_ne_config_file (p : String) :
    "[config_key=" ++ p ++ "]" ≠ "config_file" := by
  intro h
  have h2 := congrArg String.data h
  simp at h2

/-- Every translated key has the form `[config_key=p]`. -/
theorem jsonschemaFormatError_key_form (conv : String → String × Option GoError)
    (n : ValidationError) :
    ∃ p, (jsonschemaFormatError conv n).1 = "[config_key=" ++ p ++ "]" := by
  unfold jsonschemaFormatError
  exact ⟨_, rfl⟩

/-- The translation of a node does not read its causes. -/
theorem jsonschemaFormatError_causes (conv : String → String × Option GoError)
    (n : ValidationError) (cs : List ValidationError) :
    jsonschemaFormatError conv (.mk n.InstancePtr n.Message n.Context cs)
      = jsonschemaFormatError conv n := by
  cases n
  rfl

/-! ## The mapping built by `LoggerWithValidationErrorFields` -/

/-- C4: the keys of the mapping are exactly `config_file`, the translated key
of the root and the translated key of each direct cause; every key occurs
once, the mapping has at most `len(e.Causes) + 2` entries, and causes of causes
contribute nothing: removing them leaves the mapping as it is. -/
theorem validationErrorEntries_keys (conv : String → String × Option GoError)
    (v : Viper) (e : ValidationError) :
    (∀ k, k ∈ Fields.keys (validationErrorEntries conv v e) ↔
        (k = "config_file" ∨ k = (jsonschemaFormatError conv e).1 ∨
          ∃ c ∈ e.Causes, k = (jsonschemaFormatError conv c).1))
    ∧ (Fields.keys (validationErrorEntries conv v e)).Nodup
    ∧ (validationErrorEntries conv v e).length ≤ e.Causes.length + 2
    ∧ validationErrorEntries conv v e.withoutNested = validationErrorEntries conv v e := by
  refine ⟨?_, ?_, ?_, ?_⟩
  · intro k
    rw [validationErrorEntries_eq_setAll, Fields.mem_keys_setAll]
    simp only [Fields.keys, List.map_cons, List.map_nil, List.map_map,
      List.mem_cons, List.mem_map, Function.comp, nodeField, List.not_mem_nil, or_false]
    constructor
    · rintro (h | h | ⟨c, hc, rfl⟩)
      · exact Or.inl h
      · exact Or.inr (Or.inl h)
      · exact Or.inr (Or.inr ⟨c, hc, rfl⟩)
    · rintro (h | h | ⟨c, hc, rfl⟩)
      · exact Or.inl h
      · exact Or.inr (Or.inl h)
      · exact Or.inr (Or.inr ⟨c, hc, rfl⟩)
  · rw [validationErrorEntries_eq_setAll]
    apply Fields.nodup_keys_setAll
    simp [Fields.keys]
  · rw [validationErrorEntries_eq_setAll]
    have h := Fields.length_setAll_le ((e :: e.Causes).map (nodeField conv))
      [("config_file", FieldValue.str v.ConfigFileUsed)]
    simp only [List.length_map, List.length_cons, List.length_nil] at h
    omega
  · rw [validationErrorEntries_eq_setAll, validationErrorEntries_eq_setAll]
    congr 1
    cases e with
    | mk p m c cs =>
      show nodeField conv _ :: List.map (nodeField conv)
          (cs.map fun c => .mk c.InstancePtr c.Message c.Context [])
        = nodeField conv _ :: List.map (nodeField conv) cs
      have htl : List.map (nodeField conv)
            (cs.map fun c => .mk c.InstancePtr c.Message c.Context [])
          = List.map (nodeField conv) cs := by
        rw [List.map_map]
        apply List.map_congr_left
        intro n _
        show nodeField conv (.mk n.InstancePtr n.Message n.Context []) = nodeField conv n
        unfold nodeField
        rw [jsonschemaFormatError_causes conv n []]
      rw [htl]
      rfl

/-- C5: the mapping always holds the key `config_file` with the configuration
file viper has in use, and every other key has the form `[config_key=p]`; no
field of the root or of a cause takes the place of `config_file`. -/
theorem validationErrorEntries_config_file (conv : String → String × Option GoError)
    (v : Viper) (e : ValidationError) :
    Fields.get (validationErrorEntries conv v e) "config_file"
      = some (FieldValue.str v.ConfigFileUsed)
    ∧ ∀ k, k ∈ Fields.keys (validationErrorEntries conv v e) →
        k = "config_file" ∨ ∃ p, k = "[config_key=" ++ p ++ "]" := by
  constructor
  · rw [validationErrorEntries_eq_setAll, Fields.get_setAll]
    have hnone : ((e :: e.Causes).map (nodeField conv)).reverse.find?
        (fun kv => kv.1 = "config_file") = none := by
      rw [List.find?_eq_none]
      intro kv hkv
      rw [List.mem_reverse, List.mem_map] at hkv
      obtain ⟨n, _, rfl⟩ := hkv
      obtain ⟨p, hp⟩ := jsonschemaFormatError_key_form conv n
      simp only [nodeField, hp, decide_eq_true_eq]
      exact config_key_ne_config_file p
    rw [hnone]
    simp [Fields.get]
  · intro k hk
    rw [validationErrorEntries_eq_setAll, Fields.mem_keys_setAll] at hk
    rcases hk with hk | hk
    · left
      simpa [Fields.keys] using hk
    · right
      rw [List.map_map, List.mem_map] at hk
      obtain ⟨n, _, rfl⟩ := hk
      exact jsonschemaFormatError_key_form conv n

/-- C8: the value stored under a translated key of the mapping is the message
of the last node, in the order root, first cause, second cause, ..., whose
translated key is that key: later nodes overwrite earlier ones. -/
theorem validationErrorEntries_last_wins (conv : String → String × Option GoError)
    (v : Viper) (e : ValidationError) (p : String)
    (hk : "[config_key=" ++ p ++ "]" ∈ Fields.keys (validationErrorEntries conv v e)) :
    ∃ n, (e :: e.Causes).reverse.find?
          (fun n => (jsonschemaFormatError conv n).1 = "[config_key=" ++ p ++ "]") = some n
      ∧ Fields.get (validationErrorEntries conv v e) ("[config_key=" ++ p ++ "]")
          = some (FieldValue.str (jsonschemaFormatError conv n).2) := by
  rw [validationErrorEntries_eq_setAll] at hk ⊢
  rw [Fields.mem_keys_setAll] at hk
  have hmem : ∃ n ∈ (e :: e.Causes).reverse,
      (jsonschemaFormatError conv n).1 = "[config_key=" ++ p ++ "]" := by
    rcases hk with hk | hk
    · simp only [Fields.keys, List.map_cons, List.map_nil, List.mem_singleton] at hk
      exact absurd hk (config_key_ne_config_file p)
    · rw [List.map_map, List.mem_map] at hk
      obtain ⟨n, hn, hn2⟩ := hk
      exact ⟨n, List.mem_reverse.mpr hn, hn2⟩
  cases hf : (e :: e.Causes).reverse.find?
      (fun n => (jsonschemaFormatError conv n).1 = "[config_key=" ++ p ++ "]") with
  | none =>
    rw [List.find?_eq_none] at hf
    obtain ⟨n, hn, hn2⟩ := hmem
    exact absurd (by simpa using hn2) (hf n hn)
  | some n =>
    refine ⟨n, rfl, ?_⟩
    rw [Fields.get_setAll, ← List.map_reverse, List.find?_map]
    have hf2 : List.find? ((fun kv => decide (kv.1 = "[config_key=" ++ p ++ "]")) ∘ nodeField conv)
        (e :: e.Causes).reverse = some n := hf
    rw [hf2]
    rfl

/-- Witness of C8 and scenario C: a root with a cause that misses `a.b`, a cause
of wrong type at `c.d` and a second cause at `c.d`. The missing property and
the type error are two fields, and under `[config_key=c.d]` the later cause
has replaced the earlier one. -/
theorem validationErrorEntries_last_wins_witness :
    validationErrorEntries pointerToDots sampleViper
        (.mk "#" "validation failed" .none
          [.mk "#/a" "missing properties: b" (.required ["#/a/b"]) [],
           .mk "#/c/d" "expected integer, but got string" (.other "type") [],
           .mk "#/c/d" "must be >= 1" (.other "minimum") []])
      = [("config_file", .str "/etc/app.yaml"),
         ("[config_key=#]", .str "validation failed"),
         ("[config_key=a.b]", .str "one or more required properties are missing"),
         ("[config_key=c.d]", .str "must be >= 1")]
    ∧ ∃ n, (ValidationError.mk "#" "validation failed" .none
          [.mk "#/a" "missing properties: b" (.required ["#/a/b"]) [],
           .mk "#/c/d" "expected integer, but got string" (.other "type") [],
           .mk "#/c/d" "must be >= 1" (.other "minimum") []]
          :: (ValidationError.mk "#" "validation failed" .none
          [.mk "#/a" "missing properties: b" (.required ["#/a/b"]) [],
           .mk "#/c/d" "expected integer, but got string" (.other "type") [],
           .mk "#/c/d" "must be >= 1" (.other "minimum") []]).Causes).reverse.find?
          (fun n => (jsonschemaFormatError pointerToDots n).1 = "[config_key=" ++ "c.d" ++ "]")
            = some n
      ∧ Fields.get (validationErrorEntries pointerToDots sampleViper
        (.mk "#" "validation failed" .none
          [.mk "#/a" "missing properties: b" (.required ["#/a/b"]) [],
           .mk "#/c/d" "expected integer, but got string" (.other "type") [],
           .mk "#/c/d" "must be >= 1" (.other "minimum") []])) ("[config_key=" ++ "c.d" ++ "]")
          = some (FieldValue.str (jsonschemaFormatError pointerToDots n).2) :=
  ⟨rfl, validationErrorEntries_last_wins pointerToDots sampleViper _ "c.d"
    (by simp [validationErrorEntries, Fields.keys, Fields.set, jsonschemaFormatError,
      ValidationError.Causes, ValidationError.Context, ValidationError.InstancePtr,
      ValidationError.Message, pointerToDots, Viper.ConfigFileUsed])⟩

/-! ## `LoggerWithValidationErrorFields` -/

/-- C3: when the cause of `err` is not a validation error the result is
`l.WithError(err)`: the field `error` holds `err` and no other field of `l` is
added, removed or changed, so no `config_file` and no `[config_key=...]` field
comes from the call. When the cause is a validation error the result is
`l.WithFields` of the translated mapping. -/
theorem LoggerWithValidationErrorFields_cases {R C S A : Type} (d : Deps R C S A)
    (v : Viper) (l : Logger) (err : GoError) :
    ((∀ e, d.Cause err ≠ .validation e) →
        LoggerWithValidationErrorFields d v l err = l.WithError err
        ∧ Fields.get (LoggerWithValidationErrorFields d v l err).Data "error"
            = some (FieldValue.err err)
        ∧ (∀ k, k ≠ "error" →
            Fields.get (LoggerWithValidationErrorFields d v l err).Data k = Fields.get l.Data k)
        ∧ (∀ k, k ∈ Fields.keys (LoggerWithValidationErrorFields d v l err).Data ↔
            (k = "error" ∨ k ∈ Fields.keys l.Data)))
    ∧ (∀ e, d.Cause err = .validation e →
        LoggerWithValidationErrorFields d v l err
          = l.WithFields (validationErrorEntries d.JSONPointerToDotNotation v e)) := by
  constructor
  · intro h
    have heq : LoggerWithValidationErrorFields d v l err = l.WithError err := by
      unfold LoggerWithValidationErrorFields
      split
      · next e he => exact absurd he (h e)
      · rfl
    rw [heq]
    refine ⟨rfl, ?_, ?_, ?_⟩
    · simp [Logger.WithError, Logger.WithFields, Fields.get_set]
    · intro k hk
      have hk2 : ¬ "error" = k := fun h2 => hk h2.symm
      simp [Logger.WithError, Logger.WithFields, Fields.get_set, hk2]
    · intro k
      simp [Logger.WithError, Logger.WithFields, Fields.mem_keys_set]
  · intro e he
    unfold LoggerWithValidationErrorFields
    rw [he]

/-- Witness of C3: a compilation error wrapped by `Validate` gives the single
field `error`; a validation error wrapped by `Validate` gives the translated
mapping. -/
theorem LoggerWithValidationErrorFields_cases_witness :
    (LoggerWithValidationErrorFields sampleDeps sampleViper ⟨[]⟩
        (.withStack (.other "unresolvable reference"))).Data
      = [("error", .err (.withStack (.other "unresolvable reference")))]
    ∧ (LoggerWithValidationErrorFields sampleDeps sampleViper ⟨[]⟩
        (.withStack (.validation (.mk "#/service/port" "expected integer" .none [])))).Data
      = [("config_file", .str "/etc/app.yaml"),
         ("[config_key=service.port]", .str "expected integer")] :=
  ⟨congrArg Logger.Data
      ((LoggerWithValidationErrorFields_cases sampleDeps sampleViper ⟨[]⟩
        (.withStack (.other "unresolvable reference"))).1
          (fun _ h => GoError.noConfusion h)).1,
    congrArg Logger.Data
      ((LoggerWithValidationErrorFields_cases sampleDeps sampleViper ⟨[]⟩
        (.withStack (.validation (.mk "#/service/port" "expected integer" .none [])))).2
          _ rfl)⟩

/-! ## `Validate` and `ValidateFromURL` -/

/-- C2: the stages of `Validate` run in the order bind, add and compile,
serialise the settings, validate. Each conjunct gives the outcome when one
stage is the first to fail: the result is that stage's error under
`WithStack`, and the record of calls stops at the failing call. The settings
serialised are those of the viper instance as the binder left it, after
`SetTypeByDefaultValue(true)`. The result is no error exactly when every
stage succeeds. -/
theorem Validate_stages {R C S A : Type} (d : Deps R C S A) (name : String)
    (content : Bytes) (w : World) :
    (∀ err, (d.BindEnvsToSchema content w.viper).2 = some err →
      Validate d name content w
        = (⟨(d.BindEnvsToSchema content w.viper).1,
            w.calls ++ [.BindEnvsToSchema content]⟩, some (.withStack err)))
    ∧ ((d.BindEnvsToSchema content w.viper).2 = none →
      (∀ err, d.AddResource d.NewCompiler name content = .error err →
        Validate d name content w
          = (⟨(d.BindEnvsToSchema content w.viper).1.SetTypeByDefaultValue true,
              w.calls ++ [.BindEnvsToSchema content, .SetTypeByDefaultValue true,
                .NewCompiler, .AddResource name content]⟩, some (.withStack err)))
      ∧ (∀ c, d.AddResource d.NewCompiler name content = .ok c →
        (∀ err, d.Compile c name = .error err →
          Validate d name content w
            = (⟨(d.BindEnvsToSchema content w.viper).1.SetTypeByDefaultValue true,
                w.calls ++ [.BindEnvsToSchema content, .SetTypeByDefaultValue true,
                  .NewCompiler, .AddResource name content, .Compile name]⟩,
                some (.withStack err)))
        ∧ (∀ s, d.Compile c name = .ok s →
          (∀ err, d.Encode (d.AllSettings
                ((d.BindEnvsToSchema content w.viper).1.SetTypeByDefaultValue true))
              = .error err →
            Validate d name content w
              = (⟨(d.BindEnvsToSchema content w.viper).1.SetTypeByDefaultValue true,
                  w.calls ++ [.BindEnvsToSchema content, .SetTypeByDefaultValue true,
                    .NewCompiler, .AddResource name content, .Compile name,
                    .AllSettings
                      ((d.BindEnvsToSchema content w.viper).1.SetTypeByDefaultValue true),
                    .Encode]⟩,
                  some (.withStack err)))
          ∧ (∀ b, d.Encode (d.AllSettings
                ((d.BindEnvsToSchema content w.viper).1.SetTypeByDefaultValue true))
              = .ok b →
            (Validate d name content w).1
              = ⟨(d.BindEnvsToSchema content w.viper).1.SetTypeByDefaultValue true,
                  w.calls ++ [.BindEnvsToSchema content, .SetTypeByDefaultValue true,
                    .NewCompiler, .AddResource name content, .Compile name,
                    .AllSettings
                      ((d.BindEnvsToSchema content w.viper).1.SetTypeByDefaultValue true),
                    .Encode, .SchemaValidate b]⟩
            ∧ (∀ err, d.SchemaValidate s b = some err →
                (Validate d name content w).2 = some (.withStack err))
            ∧ (d.SchemaValidate s b = none → (Validate d name content w).2 = none)))))
    ∧ ((Validate d name content w).2 = none ↔
        ((d.BindEnvsToSchema content w.viper).2 = none
          ∧ ∃ c s b, d.AddResource d.NewCompiler name content = .ok c
            ∧ d.Compile c name = .ok s
            ∧ d.Encode (d.AllSettings
                ((d.BindEnvsToSchema content w.viper).1.SetTypeByDefaultValue true)) = .ok b
            ∧ d.SchemaValidate s b = none)) := by
  refine ⟨?_, ?_, ?_⟩
  · intro err h
    simp [Validate, World.did, h]
  · intro h
    refine ⟨?_, ?_⟩
    · intro err h1
      simp [Validate, World.did, h, h1]
    · intro c h1
      refine ⟨?_, ?_⟩
      · intro err h2
        simp [Validate, World.did, h, h1, h2]
      · intro s h2
        refine ⟨?_, ?_⟩
        · intro err h3
          simp [Validate, World.did, h, h1, h2, h3]
        · intro b h3
          refine ⟨?_, ?_, ?_⟩
          · cases h4 : d.SchemaValidate s b <;>
              simp [Validate, World.did, h, h1, h2, h3, h4]
          · intro err h4
            simp [Validate, World.did, h, h1, h2, h3, h4]
          · intro h4
            simp [Validate, World.did, h, h1, h2, h3, h4]
  · cases h : (d.BindEnvsToSchema content w.viper).2 with
    | some err => simp [Validate, World.did, h]
    | none =>
      cases h1 : d.AddResource d.NewCompiler name content with
      | error err => simp [Validate, World.did, h, h1]
      | ok c =>
        cases h2 : d.Compile c name with
        | error err => simp [Validate, World.did, h, h1, h2]
        | ok s =>
          cases h3 : d.Encode (d.AllSettings
              ((d.BindEnvsToSchema content w.viper).1.SetTypeByDefaultValue true)) with
          | error err => simp [Validate, World.did, h, h1, h2, h3]
          | ok b =>
            cases h4 : d.SchemaValidate s b <;>
              simp [Validate, World.did, h, h1, h2, h3, h4]

/-- Witness of C2 on the sample collaborators: a schema that compiles and is
satisfied gives no error after all eight calls, and a schema that does not
compile stops at `Compile`. -/
theorem Validate_stages_witness :
    Validate sampleDeps "schema.json" [1] sampleWorld
      = (⟨⟨[("service.port", "SERVICE_PORT")], true, "/etc/app.yaml"⟩,
          [.BindEnvsToSchema [1], .SetTypeByDefaultValue true, .NewCompiler,
            .AddResource "schema.json" [1], .Compile "schema.json",
            .AllSettings ⟨[("service.port", "SERVICE_PORT")], true, "/etc/app.yaml"⟩,
            .Encode, .SchemaValidate [7]]⟩, none)
    ∧ Validate sampleDeps "schema.json" [2] sampleWorld
      = (⟨⟨[("service.port", "SERVICE_PORT")], true, "/etc/app.yaml"⟩,
          [] ++ [.BindEnvsToSchema [2], .SetTypeByDefaultValue true, .NewCompiler,
            .AddResource "schema.json" [2], .Compile "schema.json"]⟩,
          some (.withStack (.other "unresolvable reference"))) :=
  ⟨rfl, ((((Validate_stages sampleDeps "schema.json" [2] sampleWorld).2.1 rfl).2
    [2] rfl).1 (.other "unresolvable reference") rfl)⟩

/-- C9, the claim fails: the snapshot violates the schema `[3]`, `Validate`
returns the validation error, and the viper instance keeps the binding
registered by the binder and the flag set by `SetTypeByDefaultValue(true)`. -/
theorem Validate_error_changes_viper :
    (Validate sampleDeps "schema.json" [3] sampleWorld).2
      = some (.withStack (.validation (.mk "#" "invalid" .none [])))
    ∧ sampleWorld.viper = ⟨[], false, "/etc/app.yaml"⟩
    ∧ (Validate sampleDeps "schema.json" [3] sampleWorld).1.viper
      = ⟨[("service.port", "SERVICE_PORT")], true, "/etc/app.yaml"⟩
    ∧ (Validate sampleDeps "schema.json" [3] sampleWorld).1.viper ≠ sampleWorld.viper :=
  ⟨rfl, rfl, rfl, by decide⟩

/-- C9 as amended: `Validate` undoes nothing. When it returns an error and the
binder reported one, the viper instance is as the binder left it; when it
returns an error from a later stage, the viper instance is the binder's
result with the type-by-default-value flag set to true. The error returned is
a stage's error under `WithStack`. -/
theorem Validate_error_viper {R C S A : Type} (d : Deps R C S A) (name : String)
    (content : Bytes) (w : World) (err : GoError)
    (h : (Validate d name content w).2 = some err) :
    (∃ cause, err = .withStack cause)
    ∧ ((d.BindEnvsToSchema content w.viper).2 ≠ none →
        (Validate d name content w).1.viper = (d.BindEnvsToSchema content w.viper).1)
    ∧ ((d.BindEnvsToSchema content w.viper).2 = none →
        (Validate d name content w).1.viper
          = (d.BindEnvsToSchema content w.viper).1.SetTypeByDefaultValue true) := by
  cases hb : (d.BindEnvsToSchema content w.viper).2 with
  | some e0 =>
    simp only [Validate, World.did, hb] at h ⊢
    refine ⟨⟨e0, ?_⟩, ?_, ?_⟩
    · simpa using h.symm
    · intro _
      trivial
    · intro h1
      cases h1
  | none =>
    refine ⟨?_, fun h1 => absurd rfl h1, fun _ => ?_⟩
    · cases h1 : d.AddResource d.NewCompiler name content with
      | error e1 =>
        simp only [Validate, World.did, hb, h1] at h
        exact ⟨e1, by simpa using h.symm⟩
      | ok c =>
        cases h2 : d.Compile c name with
        | error e2 =>
          simp only [Validate, World.did, hb, h1, h2] at h
          exact ⟨e2, by simpa using h.symm⟩
        | ok s =>
          cases h3 : d.Encode (d.AllSettings
              ((d.BindEnvsToSchema content w.viper).1.SetTypeByDefaultValue true)) with
          | error e3 =>
            simp only [Validate, World.did, hb, h1, h2, h3] at h
            exact ⟨e3, by simpa using h.symm⟩
          | ok b =>
            cases h4 : d.SchemaValidate s b with
            | some e4 =>
              simp only [Validate, World.did, hb, h1, h2, h3, h4] at h
              exact ⟨e4, by simpa using h.symm⟩
            | none =>
              simp only [Validate, World.did, hb, h1, h2, h3, h4] at h
              cases h
    · cases h1 : d.AddResource d.NewCompiler name content with
      | error e1 => simp only [Validate, World.did, hb, h1]
      | ok c =>
        cases h2 : d.Compile c name with
        | error e2 => simp only [Validate, World.did, hb, h1, h2]
        | ok s =>
          cases h3 : d.Encode (d.AllSettings
              ((d.BindEnvsToSchema content w.viper).1.SetTypeByDefaultValue true)) with
          | error e3 => simp only [Validate, World.did, hb, h1, h2, h3]
          | ok b =>
            cases h4 : d.SchemaValidate s b <;>
              simp only [Validate, World.did, hb, h1, h2, h3, h4]

/-- Witness of amended C9 at the violated schema `[3]`. -/
theorem Validate_error_viper_witness :
    (Validate sampleDeps "schema.json" [3] sampleWorld).2
      = some (.withStack (.validation (.mk "#" "invalid" .none [])))
    ∧ (sampleDeps.BindEnvsToSchema [3] sampleWorld.viper).2 = none
    ∧ (Validate sampleDeps "schema.json" [3] sampleWorld).1.viper
      = (sampleDeps.BindEnvsToSchema [3] sampleWorld.viper).1.SetTypeByDefaultValue true :=
  ⟨rfl, rfl, (Validate_error_viper sampleDeps "schema.json" [3] sampleWorld _ rfl).2.2 rfl⟩

/-- The error and the viper instance that `Validate` returns do not depend on
the calls recorded before it. -/
theorem Validate_calls_irrelevant {R C S A : Type} (d : Deps R C S A) (name : String)
    (content : Bytes) (v : Viper) (cs cs2 : List Call) :
    (Validate d name content ⟨v, cs⟩).2 = (Validate d name content ⟨v, cs2⟩).2
    ∧ (Validate d name content ⟨v, cs⟩).1.viper = (Validate d name content ⟨v, cs2⟩).1.viper := by
  cases hb : (d.BindEnvsToSchema content v).2 with
  | some e0 => simp [Validate, World.did, hb]
  | none =>
    cases h1 : d.AddResource d.NewCompiler name content with
    | error e1 => simp [Validate, World.did, hb, h1]
    | ok c =>
      cases h2 : d.Compile c name with
      | error e2 => simp [Validate, World.did, hb, h1, h2]
      | ok s =>
        cases h3 : d.Encode (d.AllSettings
            ((d.BindEnvsToSchema content v).1.SetTypeByDefaultValue true)) with
        | error e3 => simp [Validate, World.did, hb, h1, h2, h3]
        | ok b =>
          cases h4 : d.SchemaValidate s b <;>
            simp [Validate, World.did, hb, h1, h2, h3, h4]

/-- C10: `ValidateFromURL` is the loader followed by `Validate`. When the
fetch and the read succeed with bytes `b` the call is `Validate(url, b)`: the
same error and the same viper instance, after the two loader calls. When the
fetch or the read fails the result is that error under `WithStack`, whose
`Cause()` is the error itself; the viper instance is untouched and no call of
`Validate` is made. -/
theorem ValidateFromURL_composition {R C S A : Type} (d : Deps R C S A) (url : String)
    (w : World) :
    (∀ buf b, d.LoadURL url = .ok buf → d.ReadAll buf = .ok b →
      ValidateFromURL d url w
          = Validate d url b ⟨w.viper, w.calls ++ [.LoadURL url, .ReadAll]⟩
        ∧ (ValidateFromURL d url w).2 = (Validate d url b w).2
        ∧ (ValidateFromURL d url w).1.viper = (Validate d url b w).1.viper)
    ∧ (∀ err, d.LoadURL url = .error err →
      ValidateFromURL d url w
          = (⟨w.viper, w.calls ++ [.LoadURL url]⟩, some (.withStack err))
        ∧ (GoError.withStack err).causer = some err)
    ∧ (∀ buf err, d.LoadURL url = .ok buf → d.ReadAll buf = .error err →
      ValidateFromURL d url w
          = (⟨w.viper, w.calls ++ [.LoadURL url, .ReadAll]⟩, some (.withStack err))
        ∧ (GoError.withStack err).causer = some err) := by
  refine ⟨?_, ?_, ?_⟩
  · intro buf b h1 h2
    have heq : ValidateFromURL d url w
        = Validate d url b ⟨w.viper, w.calls ++ [.LoadURL url, .ReadAll]⟩ := by
      simp [ValidateFromURL, World.did, h1, h2]
    have hirr := Validate_calls_irrelevant d url b w.viper
      (w.calls ++ [.LoadURL url, .ReadAll]) w.calls
    refine ⟨heq, ?_, ?_⟩
    · rw [heq]
      exact hirr.1
    · rw [heq]
      exact hirr.2
  · intro err h1
    refine ⟨?_, rfl⟩
    simp [ValidateFromURL, World.did, h1]
  · intro buf err h1 h2
    refine ⟨?_, rfl⟩
    simp [ValidateFromURL, World.did, h1, h2]

/-- Witness of C10 on the sample collaborators: the known URL is validated
under its own name, an unknown URL fails in the loader. -/
theorem ValidateFromURL_composition_witness :
    ValidateFromURL sampleDeps "file://schema.json" sampleWorld
      = Validate sampleDeps "file://schema.json" [1]
          ⟨sampleWorld.viper, sampleWorld.calls ++ [.LoadURL "file://schema.json", .ReadAll]⟩
    ∧ ValidateFromURL sampleDeps "file://other.json" sampleWorld
      = (⟨sampleWorld.viper, sampleWorld.calls ++ [.LoadURL "file://other.json"]⟩,
          some (.withStack (.other "no such file"))) :=
  ⟨((ValidateFromURL_composition sampleDeps "file://schema.json" sampleWorld).1
      [1] [1] rfl rfl).1,
    ((ValidateFromURL_composition sampleDeps "file://other.json" sampleWorld).2.1
      (.other "no such file") rfl).1⟩

end Viperx
